import Mathlib

/-!
Shallow embedding of `src/WholeBodyTrajectoryDisplay.cpp` from the
`whole_body_state_rviz_plugin` repository.

Scalar samples coming in over the wire are IEEE floats that may be NaN or
infinite; the display immediately classifies each component as finite or not
and, for finite data, only ever performs exact arithmetic that we model over
the rationals.  A scalar is therefore embedded as `FVal`: either a finite
rational or one of the non-finite forms.  Geometry produced by the display
(after sanitization) is rational-valued.

Stateful Ogre/rviz objects (`rviz::BillboardLine`, `Ogre::ManualObject`,
`PointVisual`, `rviz::Axes`) are embedded as records of the attributes the
display sets on them; the display state is a record of the class members.
Operations that dereference a null handle or index a vector out of range in
the C++ are modelled as returning `none`.
-/

attribute [local semireducible] Rat.add Rat.sub Rat.mul Rat.inv Rat.ofScientific

/-- A float sample: a finite rational, or NaN / plus-minus infinity. -/
inductive FVal where
  | fin (q : ℚ)
  | nan
  | posInf
  | negInf
deriving DecidableEq

/-- Models `std::isfinite` on a sample component. -/
def FVal.isFinite : FVal → Bool
  | .fin _ => true
  | _ => false

/-- Rational value of a sample; meaningful only for finite samples
(the display never does arithmetic on non-finite data: it replaces it first). -/
def FVal.toQ : FVal → ℚ
  | .fin q => q
  | _ => 0

/-- A raw 3-vector as found in a message (components may be non-finite). -/
structure Point3F where
  x : FVal
  y : FVal
  z : FVal
deriving DecidableEq

/-- A raw quaternion as found in a message. -/
structure Quat4F where
  x : FVal
  y : FVal
  z : FVal
  w : FVal
deriving DecidableEq

/-- An exact 3-vector (an `Ogre::Vector3` holding finite data). -/
structure Vec3 where
  x : ℚ
  y : ℚ
  z : ℚ
deriving DecidableEq

/-- An exact quaternion (an `Ogre::Quaternion` holding finite data). -/
structure Quat4 where
  x : ℚ
  y : ℚ
  z : ℚ
  w : ℚ
deriving DecidableEq

/-- An RGBA colour (`Ogre::ColourValue`). -/
structure RGBA where
  r : ℚ
  g : ℚ
  b : ℚ
  a : ℚ
deriving DecidableEq

def Point3F.toVec3 (p : Point3F) : Vec3 := ⟨p.x.toQ, p.y.toQ, p.z.toQ⟩

def Quat4F.toQuat4 (q : Quat4F) : Quat4 := ⟨q.x.toQ, q.y.toQ, q.z.toQ, q.w.toQ⟩

/-- All three components of a raw point are finite. -/
def Point3F.allFinite (p : Point3F) : Bool :=
  p.x.isFinite && p.y.isFinite && p.z.isFinite

/-- All four components of a raw quaternion are finite. -/
def Quat4F.allFinite (q : Quat4F) : Bool :=
  q.x.isFinite && q.y.isFinite && q.z.isFinite && q.w.isFinite

/-- The zero vector a non-finite CoM or contact position is reset to
(lines 335-342 and 525-532 of the source). -/
def zeroPoint3F : Point3F := ⟨.fin 0, .fin 0, .fin 0⟩

/-- The identity quaternion a non-finite body orientation is reset to
(lines 343-353 of the source). -/
def identQuat4F : Quat4F := ⟨.fin 0, .fin 0, .fin 0, .fin 1⟩

/-- Sanity check on a position: keep it if all components are finite,
else reset it to zero (source lines 335-342, likewise 525-532). -/
def sanitizePoint (p : Point3F) : Point3F :=
  if p.allFinite then p else zeroPoint3F

/-- Sanity check on an orientation: keep it if all components are finite,
else reset it to the identity quaternion `(0,0,0,1)` (source lines 343-353). -/
def sanitizeQuat (q : Quat4F) : Quat4F :=
  if q.allFinite then q else identQuat4F

/-- Hamilton product of two quaternions (`Ogre::Quaternion::operator*`),
used for `base_orientation * orientation` at line 356. -/
def quatMul (p q : Quat4) : Quat4 :=
  ⟨p.w * q.x + p.x * q.w + p.y * q.z - p.z * q.y,
   p.w * q.y + p.y * q.w + p.z * q.x - p.x * q.z,
   p.w * q.z + p.z * q.w + p.x * q.y - p.y * q.x,
   p.w * q.w - p.x * q.x - p.y * q.y - p.z * q.z⟩

/-- Rotation of a vector by a unit quaternion, via the rotation matrix that
`Ogre::Matrix4 transform(orientation)` builds from the quaternion. -/
def quatRotate (q : Quat4) (v : Vec3) : Vec3 :=
  ⟨(1 - 2 * (q.y * q.y + q.z * q.z)) * v.x + (2 * (q.x * q.y - q.z * q.w)) * v.y +
      (2 * (q.x * q.z + q.y * q.w)) * v.z,
   (2 * (q.x * q.y + q.z * q.w)) * v.x + (1 - 2 * (q.x * q.x + q.z * q.z)) * v.y +
      (2 * (q.y * q.z - q.x * q.w)) * v.z,
   (2 * (q.x * q.z - q.y * q.w)) * v.x + (2 * (q.y * q.z + q.x * q.w)) * v.y +
      (1 - 2 * (q.x * q.x + q.y * q.y)) * v.z⟩

/-- Application of the rigid frame transform built at lines 308-309 / 420-421:
`transform * v = rotate(orientation, v) + position`. -/
def applyTransform (pos : Vec3) (orient : Quat4) (v : Vec3) : Vec3 :=
  let r := quatRotate orient v
  ⟨r.x + pos.x, r.y + pos.y, r.z + pos.z⟩

/-- Squared Euclidean distance (`Ogre::Vector3::squaredDistance`). -/
def sqDist (a b : Vec3) : ℚ :=
  (a.x - b.x) * (a.x - b.x) + (a.y - b.y) * (a.y - b.y) + (a.z - b.z) * (a.z - b.z)

/-- The axes-downsampling test at lines 585-586 of the source:
`sq_distant >= scale * scale * 0.0032`. -/
def shouldEmit (cand last : Vec3) (scale : ℚ) : Bool :=
  decide (sqDist cand last ≥ scale * scale * (0.0032 : ℚ))

/-! ## Message model (`state_msgs::WholeBodyTrajectory`) -/

/-- One named contact sample (`state_msgs::ContactState`: the display reads
only `name` and `pose.position`; the declared contact orientation is unused). -/
structure ContactState where
  name : String
  position : Point3F
deriving DecidableEq

/-- One time-step (`state_msgs::WholeBodyState`), as read by the display. -/
structure WholeBodyState where
  com_position : Point3F
  base_orientation : Quat4F
  contacts : List ContactState
deriving DecidableEq

/-- A whole-body trajectory message. -/
structure WholeBodyTrajectory where
  trajectory : List WholeBodyState
deriving DecidableEq

/-! ## Drawable objects -/

/-- Rendering style enumeration (`LineStyle` in the header). -/
inductive LineStyle where
  | BILLBOARDS
  | LINES
  | POINTS
deriving DecidableEq

/-- An `rviz::BillboardLine`, as configured by the display: `setNumLines`,
`setMaxPointsPerLine`, `setLineWidth`, per-point `addPoint(position, color)`,
and a whole-line `setColor` (only called from the property-update handlers). -/
structure BillboardLine where
  numLines : ℕ
  maxPointsPerLine : ℕ
  lineWidth : ℚ
  color : Option RGBA
  points : List (Vec3 × RGBA)
deriving DecidableEq

/-- An `Ogre::ManualObject` in line-strip mode: `begin` starts an empty
vertex list, `position`/`colour` append a vertex, `end` finalizes. -/
structure ManualObject where
  dynamic : Bool
  estimatedCount : ℕ
  vertices : List (Vec3 × RGBA)
  ended : Bool
deriving DecidableEq

/-- A `PointVisual` marker: colour, radius, a point, and the attached frame
pose (`setFramePosition` / `setFrameOrientation`). -/
structure PointVisual where
  color : RGBA
  radius : ℚ
  point : Vec3
  framePosition : Vec3
  frameOrientation : Quat4
deriving DecidableEq

/-- An `rviz::Axes` triad: position, orientation, the alpha written into its
x/y/z colours (all three get the same CoM alpha), visibility and scale. -/
structure AxesObj where
  position : Vec3
  orientation : Quat4
  axesAlpha : ℚ
  visible : Bool
  scale : ℚ
deriving DecidableEq

/-! ## Display state (the members of `WholeBodyTrajectoryDisplay`) -/

/-- The mutable state of one `WholeBodyTrajectoryDisplay`: property values,
enable flags, the stored message, the owned drawables and the persistent
`last_point_position_` member of the axes downsampler. -/
structure DisplayState where
  is_info : Bool
  com_enable : Bool
  contact_enable : Bool
  com_style : LineStyle
  com_line_width : ℚ
  com_color : RGBA
  com_scale : ℚ
  com_alpha : ℚ
  contact_style : LineStyle
  contact_line_width : ℚ
  contact_color : RGBA
  contact_alpha : ℚ
  com_billboard_line : Option BillboardLine
  com_manual_object : Option ManualObject
  com_points : List PointVisual
  com_axes : List AxesObj
  contact_billboard_line : List (Option BillboardLine)
  contact_manual_object : List (Option ManualObject)
  contact_points : List (List (Option PointVisual))
  last_point_position : Vec3
  msg : Option WholeBodyTrajectory
deriving DecidableEq

/-- The CoM draw colour: the colour property with its alpha overridden by the
alpha property (lines 316-317). -/
def comDrawColor (s : DisplayState) : RGBA :=
  { s.com_color with a := s.com_alpha }

/-- The contact draw colour (lines 429-431). -/
def contactDrawColor (s : DisplayState) : RGBA :=
  { s.contact_color with a := s.contact_alpha }

/-! ## CoM trajectory processing (`processCoMTrajectory`, lines 298-408) -/

/-- A freshly constructed axes marker (lines 587-601). -/
def mkAxes (pos : Vec3) (orient : Quat4) (alpha scale : ℚ) : AxesObj :=
  { position := pos, orientation := orient, axesAlpha := alpha,
    visible := true, scale := scale }

/-- Loop-carried state of `processCoMTrajectory`: the three style containers,
the axes markers collected so far and the downsampler's last emitted position. -/
structure CoMAcc where
  billboard : Option BillboardLine
  manual : Option ManualObject
  points : List PointVisual
  axes : List AxesObj
  last : Vec3
deriving DecidableEq

/-- `pushBackCoMAxes` (lines 578-605): emit an axes marker when the candidate
position is far enough from the last emitted one, updating that position. -/
def pushBackCoMAxes (scale alpha : ℚ) (pos : Vec3) (orient : Quat4)
    (axes : List AxesObj) (last : Vec3) : List AxesObj × Vec3 :=
  if shouldEmit pos last scale then (axes ++ [mkAxes pos orient alpha scale], pos)
  else (axes, last)

/-- One iteration of the CoM loop (lines 322-402), at index `i` of `n`.
Returns `none` when the C++ would dereference a null drawable handle. -/
def comStep (fp : Vec3) (fo : Quat4) (style : LineStyle) (color : RGBA)
    (lineWidth scale alpha : ℚ) (n : ℕ) (i : ℕ) (st : WholeBodyState)
    (acc : CoMAcc) : Option CoMAcc :=
  let comPos := sanitizePoint st.com_position
  let baseOrient := sanitizeQuat st.base_orientation
  let pointPos := applyTransform fp fo comPos.toVec3
  let ax := pushBackCoMAxes scale alpha pointPos (quatMul baseOrient.toQuat4 fo) acc.axes acc.last
  match style with
  | .BILLBOARDS =>
    let bb := if i = 0 then
        some { numLines := 1, maxPointsPerLine := n, lineWidth := lineWidth,
               color := none, points := [] }
      else acc.billboard
    match bb with
    | none => none
    | some b =>
      some { billboard := some { b with points := b.points ++ [(pointPos, color)] },
             manual := acc.manual, points := acc.points, axes := ax.1, last := ax.2 }
  | .LINES =>
    let mo := if i = 0 then
        some { dynamic := true, estimatedCount := n, vertices := [], ended := false }
      else acc.manual
    match mo with
    | none => none
    | some m =>
      some { billboard := acc.billboard,
             manual := some { m with vertices := m.vertices ++ [(pointPos, color)] },
             points := acc.points, axes := ax.1, last := ax.2 }
  | .POINTS =>
    let pts := if i = 0 then [] else acc.points
    some { billboard := acc.billboard, manual := acc.manual,
           points := pts ++ [{ color := color, radius := lineWidth, point := comPos.toVec3,
                               framePosition := fp, frameOrientation := fo }],
           axes := ax.1, last := ax.2 }

/-- The CoM loop over the remaining states, indexed from `i`. -/
def comLoop (fp : Vec3) (fo : Quat4) (style : LineStyle) (color : RGBA)
    (lineWidth scale alpha : ℚ) (n : ℕ) :
    List WholeBodyState → ℕ → CoMAcc → Option CoMAcc
  | [], _, acc => some acc
  | st :: rest, i, acc =>
    (comStep fp fo style color lineWidth scale alpha n i st acc).bind
      (comLoop fp fo style color lineWidth scale alpha n rest (i + 1))

/-- `processCoMTrajectory` (lines 298-408).  `fp`/`fo` are the frame
transform produced by the external frame manager lookup (on lookup failure the
C++ logs and proceeds with whatever the lookup left there, so the transform is
simply a parameter here).  Returns `none` when the C++ dereferences a null
handle: in particular the unconditional `com_manual_object_->end()` at
line 405 when the style is LINES and no manual object exists. -/
def processCoMTrajectory (fp : Vec3) (fo : Quat4) (s : DisplayState) :
    Option DisplayState :=
  if s.com_enable then
    match s.msg with
    | none => none
    | some m =>
      let style := s.com_style
      let color := comDrawColor s
      let n := m.trajectory.length
      let acc0 : CoMAcc :=
        { billboard := s.com_billboard_line, manual := s.com_manual_object,
          points := s.com_points, axes := [], last := s.last_point_position }
      match comLoop fp fo style color s.com_line_width s.com_scale s.com_alpha n
          m.trajectory 0 acc0 with
      | none => none
      | some acc =>
        if style = .LINES then
          match acc.manual with
          | none => none
          | some mo =>
            some { s with com_billboard_line := acc.billboard,
                          com_manual_object := some { mo with ended := true },
                          com_points := acc.points, com_axes := acc.axes,
                          last_point_position := acc.last }
        else
          some { s with com_billboard_line := acc.billboard,
                        com_manual_object := acc.manual,
                        com_points := acc.points, com_axes := acc.axes,
                        last_point_position := acc.last }
  else some s

/-! ## Contact trajectory processing (`processContactTrajectory`, lines 410-563)

The C++ keeps a `std::map<std::string, std::size_t>` from contact name to
trajectory id and a `std::map<std::size_t, std::size_t>` from trajectory id to
the last array index at which that name appeared.  The string map is embedded
as an association list kept sorted by key (a `std::map` iterates its entries
in key order, which the plotting loop relies on); the index map is embedded as
an association list with unique keys. -/

/-- Lexicographic comparison of character lists, the order a
`std::map<std::string, ...>` keeps its keys in. -/
def charListLt : List Char → List Char → Bool
  | [], [] => false
  | [], _ :: _ => true
  | _ :: _, [] => false
  | c :: s, d :: t =>
    if c.val < d.val then true else if d.val < c.val then false else charListLt s t

/-- Lexicographic string comparison (`operator<` on `std::string`). -/
def strLt (a b : String) : Bool := charListLt a.data b.data

/-- Lookup in the name map (`contact_traj_id.find(name)`). -/
def mapFind? (k : String) : List (String × ℕ) → Option ℕ
  | [] => none
  | (k', v) :: t => if k = k' then some v else mapFind? k t

/-- Insertion of a fresh key into the name map, which is kept sorted by key
(`contact_traj_id[name] = id` for a name not yet present). -/
def mapInsert (k : String) (v : ℕ) : List (String × ℕ) → List (String × ℕ)
  | [] => [(k, v)]
  | (k', v') :: t =>
    if strLt k k' then (k, v) :: (k', v') :: t else (k', v') :: mapInsert k v t

/-- Lookup with default in the id-to-index map
(`contact_vec_id.find(id)->second`; the display only ever looks up ids it has
inserted, so the default is never observable in a run the C++ completes). -/
def natFindD : List (ℕ × ℕ) → ℕ → ℕ → ℕ
  | [], _, d => d
  | (k', v) :: t, k, d => if k = k' then v else natFindD t k d

/-- Insert-or-assign in the id-to-index map (`contact_vec_id[id] = k`). -/
def natUpsert (k v : ℕ) : List (ℕ × ℕ) → List (ℕ × ℕ)
  | [] => [(k, v)]
  | (k', v') :: t => if k = k' then (k, v) :: t else (k', v') :: natUpsert k v t

/-- One step of the first counting pass (lines 439-446): a contact name not
seen yet gets the next id, a seen name is left alone. -/
def assignContact (acc : List (String × ℕ) × ℕ) (name : String) :
    List (String × ℕ) × ℕ :=
  match mapFind? name acc.1 with
  | some _ => acc
  | none => (mapInsert name acc.2 acc.1, acc.2 + 1)

/-- The first pass over the trajectory (lines 433-447): count the number of
distinct contact names, i.e. of contact trajectories. -/
def countTrajPass (traj : List WholeBodyState) : ℕ :=
  (traj.foldl (fun a st => st.contacts.foldl (fun a c => assignContact a c.name) a)
    (([], 0) : List (String × ℕ) × ℕ)).2

/-- All contact names of a trajectory, in traversal order. -/
def allContactNames (traj : List WholeBodyState) : List String :=
  (traj.map (fun st => st.contacts.map ContactState.name)).flatten

/-- The name-to-id assignment both passes build, as a pure fold. -/
def contactAssignment (traj : List WholeBodyState) : List (String × ℕ) :=
  ((allContactNames traj).foldl assignContact ([], 0)).1

/-- Loop-carried state of the second pass of `processContactTrajectory`. -/
structure ContactAcc where
  trajIdMap : List (String × ℕ)
  vecId : List (ℕ × ℕ)
  ctr : ℕ
  billboards : List (Option BillboardLine)
  manuals : List (Option ManualObject)
  rows : List (List (Option PointVisual))
deriving DecidableEq

/-- The scan over one step's contacts (lines 474-505): assign ids to new
names (creating that id's drawable for the Billboard/Line styles) and refresh
the last-known array index of already-known names. -/
def scanContacts (style : LineStyle) (lineWidth : ℚ) (n : ℕ) :
    List ContactState → ℕ → ContactAcc → ContactAcc
  | [], _, acc => acc
  | c :: rest, k, acc =>
    let acc :=
      match mapFind? c.name acc.trajIdMap with
      | none =>
        let tid := acc.ctr
        let acc := { acc with trajIdMap := mapInsert c.name tid acc.trajIdMap,
                              vecId := natUpsert tid k acc.vecId, ctr := tid + 1 }
        match style with
        | .BILLBOARDS =>
          let bb : BillboardLine :=
            { numLines := 1, maxPointsPerLine := n, lineWidth := lineWidth,
              color := none, points := [] }
          { acc with billboards := acc.billboards.set tid (some bb) }
        | .LINES =>
          let mo : ManualObject :=
            { dynamic := true, estimatedCount := n, vertices := [], ended := false }
          { acc with manuals := acc.manuals.set tid (some mo) }
        | .POINTS => acc
      | some swing =>
        if k ≠ natFindD acc.vecId swing 0 then
          { acc with vecId := natUpsert swing k acc.vecId }
        else acc
    scanContacts style lineWidth n rest (k + 1) acc

/-- The plotting loop over the name map (lines 513-553): for every track seen
so far, if its last-known index is in range for this step's contact array,
sanitize and transform that entry and add it to the track's drawable.
Returns `none` where the C++ dereferences a null handle or indexes a vector
out of range (the Point-style `contact_points_[i][contact_idx]` write is not
bounds-checked in the C++ and overruns when more tracks are in range than the
step has contacts). -/
def plotTracks (fp : Vec3) (fo : Quat4) (style : LineStyle) (color : RGBA)
    (lineWidth : ℚ) (contacts : List ContactState) (i : ℕ) :
    List (String × ℕ) → ℕ → ContactAcc → Option ContactAcc
  | [], _, acc => some acc
  | (_, tid) :: rest, cidx, acc =>
    let id := natFindD acc.vecId tid 0
    if h : id < contacts.length then
      let contact := contacts[id]
      let contactPos := sanitizePoint contact.position
      let pointPos := applyTransform fp fo contactPos.toVec3
      match style with
      | .BILLBOARDS =>
        match acc.billboards[tid]? with
        | some (some b) =>
          let b' : BillboardLine := { b with points := b.points ++ [(pointPos, color)] }
          plotTracks fp fo style color lineWidth contacts i rest cidx
            { acc with billboards := acc.billboards.set tid (some b') }
        | _ => none
      | .LINES =>
        match acc.manuals[tid]? with
        | some (some mo) =>
          let mo' : ManualObject := { mo with vertices := mo.vertices ++ [(pointPos, color)] }
          plotTracks fp fo style color lineWidth contacts i rest cidx
            { acc with manuals := acc.manuals.set tid (some mo') }
        | _ => none
      | .POINTS =>
        match acc.rows[i]? with
        | none => none
        | some row =>
          if cidx < row.length then
            let pv : PointVisual :=
              { color := color, radius := lineWidth, point := pointPos,
                framePosition := fp, frameOrientation := fo }
            plotTracks fp fo style color lineWidth contacts i rest (cidx + 1)
              { acc with rows := acc.rows.set i (row.set cidx (some pv)) }
          else none
    else
      plotTracks fp fo style color lineWidth contacts i rest cidx acc

/-- One step of the second pass (lines 471-554): scan this step's contacts,
reset this step's Point-style row, then plot every known track. -/
def contactStep (fp : Vec3) (fo : Quat4) (style : LineStyle) (color : RGBA)
    (lineWidth : ℚ) (n : ℕ) (i : ℕ) (st : WholeBodyState) (acc : ContactAcc) :
    Option ContactAcc :=
  let acc := scanContacts style lineWidth n st.contacts 0 acc
  let acc := if style = .POINTS then
      { acc with rows := acc.rows.set i (List.replicate st.contacts.length none) }
    else acc
  plotTracks fp fo style color lineWidth st.contacts i acc.trajIdMap 0 acc

/-- The second pass over all steps. -/
def contactLoop (fp : Vec3) (fo : Quat4) (style : LineStyle) (color : RGBA)
    (lineWidth : ℚ) (n : ℕ) :
    List WholeBodyState → ℕ → ContactAcc → Option ContactAcc
  | [], _, acc => some acc
  | st :: rest, i, acc =>
    (contactStep fp fo style color lineWidth n i st acc).bind
      (contactLoop fp fo style color lineWidth n rest (i + 1))

/-- Finalization of the Line-style strips (lines 557-561): call `end()` on the
first `ctr` manual objects; `none` if one of those handles is null. -/
def endManuals : List (Option ManualObject) → ℕ → Option (List (Option ManualObject))
  | ms, 0 => some ms
  | [], _ + 1 => none
  | none :: _, _ + 1 => none
  | some mo :: t, k + 1 => (endManuals t k).map (fun t' => some { mo with ended := true } :: t')

/-- The initial loop-carried state of the second pass: empty maps, and the
current style's container cleared and resized (lines 450-468) while the other
styles' containers are left as they are. -/
def contactAcc0 (style : LineStyle) (nTraj n : ℕ) (s : DisplayState) : ContactAcc :=
  { trajIdMap := [], vecId := [], ctr := 0,
    billboards := if style = .BILLBOARDS then List.replicate nTraj none
                  else s.contact_billboard_line,
    manuals := if style = .LINES then List.replicate nTraj none
               else s.contact_manual_object,
    rows := if style = .POINTS then List.replicate n [] else s.contact_points }

/-- `processContactTrajectory` (lines 410-563). -/
def processContactTrajectory (fp : Vec3) (fo : Quat4) (s : DisplayState) :
    Option DisplayState :=
  if s.contact_enable then
    match s.msg with
    | none => none
    | some m =>
      let n := m.trajectory.length
      let style := s.contact_style
      let color := contactDrawColor s
      let lineWidth := s.contact_line_width
      let nTraj := countTrajPass m.trajectory
      match contactLoop fp fo style color lineWidth n m.trajectory 0
          (contactAcc0 style nTraj n s) with
      | none => none
      | some acc =>
        if style = .LINES then
          match endManuals acc.manuals acc.ctr with
          | none => none
          | some ms =>
            some { s with contact_billboard_line := acc.billboards,
                          contact_manual_object := ms,
                          contact_points := acc.rows }
        else
          some { s with contact_billboard_line := acc.billboards,
                        contact_manual_object := acc.manuals,
                        contact_points := acc.rows }
  else some s

/-! ## Message handling and the property/enable handlers -/

/-- `destroyObjects` (lines 565-576): drop every owned drawable.  Note that
`last_point_position_` is not touched. -/
def destroyObjects (s : DisplayState) : DisplayState :=
  { s with com_manual_object := none, com_billboard_line := none,
           com_points := [], com_axes := [],
           contact_manual_object := [], contact_billboard_line := [],
           contact_points := [] }

/-- `processMessage` (lines 285-296): store the message, destroy all old
drawables, then rebuild the CoM and the contact geometry. -/
def processMessage (fp : Vec3) (fo : Quat4) (m : WholeBodyTrajectory)
    (s : DisplayState) : Option DisplayState :=
  let s := { s with msg := some m, is_info := true }
  let s := destroyObjects s
  (processCoMTrajectory fp fo s).bind (processContactTrajectory fp fo)

/-- `fixedFrameChanged` (lines 101-108): reprocess both groups if a message
has been received. -/
def fixedFrameChanged (fp : Vec3) (fo : Quat4) (s : DisplayState) :
    Option DisplayState :=
  if s.is_info then (processCoMTrajectory fp fo s).bind (processContactTrajectory fp fo)
  else some s

/-- `updateCoMEnable` (lines 136-144): on disabling, drop the CoM strip, line
and point drawables (the axes markers are not touched); on enabling, nothing
is rebuilt. -/
def updateCoMEnable (enable : Bool) (s : DisplayState) : DisplayState :=
  let s := { s with com_enable := enable }
  if !enable then
    { s with com_billboard_line := none, com_manual_object := none, com_points := [] }
  else s

/-- `updateContactEnable` (lines 146-163): on disabling, null out every
contact drawable handle (the vectors keep their sizes; the point rows are
cleared); on enabling, nothing is rebuilt. -/
def updateContactEnable (enable : Bool) (s : DisplayState) : DisplayState :=
  let s := { s with contact_enable := enable }
  if !enable then
    { s with contact_manual_object := s.contact_manual_object.map (fun _ => none),
             contact_billboard_line := s.contact_billboard_line.map (fun _ => none),
             contact_points := s.contact_points.map (fun _ => []) }
  else s

/-- In-place refresh of one axes marker from the current alpha and scale
properties (lines 176-186 / 200-210). -/
def axesUpdate (alpha scale : ℚ) (a : AxesObj) : AxesObj :=
  { a with axesAlpha := alpha, visible := true, scale := scale }

/-- `updateCoMLineProperties` (lines 165-214).  In Billboard style the width
and colour are written onto the existing billboard handle — a null handle
(no message yet, or disabled) is dereferenced, modelled as `none`.  In Line
style the CoM trajectory is reprocessed.  In Point style every marker is
recoloured and resized in place. -/
def updateCoMLineProperties (fp : Vec3) (fo : Quat4) (s : DisplayState) :
    Option DisplayState :=
  let lineWidth := s.com_line_width
  let scale := s.com_scale
  let color := comDrawColor s
  match s.com_style with
  | .BILLBOARDS =>
    match s.com_billboard_line with
    | none => none
    | some b =>
      some { s with com_billboard_line :=
                      some { b with lineWidth := lineWidth, color := some color },
                    com_axes := s.com_axes.map (axesUpdate s.com_alpha scale) }
  | .LINES => if s.is_info then processCoMTrajectory fp fo s else some s
  | .POINTS =>
    some { s with com_points := s.com_points.map
                    (fun pv => { pv with color := color, radius := lineWidth }),
                  com_axes := s.com_axes.map (axesUpdate s.com_alpha scale) }

/-- Width/colour update over every contact billboard (lines 263-267);
`none` when a handle is null. -/
def setAllBB (w : ℚ) (c : RGBA) :
    List (Option BillboardLine) → Option (List (Option BillboardLine))
  | [] => some []
  | none :: _ => none
  | some b :: t =>
    (setAllBB w c t).map (fun t' => some { b with lineWidth := w, color := some c } :: t')

/-- Colour/radius update over one row of contact point markers (lines 276-279). -/
def setRowPV (w : ℚ) (c : RGBA) :
    List (Option PointVisual) → Option (List (Option PointVisual))
  | [] => some []
  | none :: _ => none
  | some pv :: t =>
    (setRowPV w c t).map (fun t' => some { pv with color := c, radius := w } :: t')

/-- Colour/radius update over all rows of contact point markers (lines 273-280). -/
def setAllPV (w : ℚ) (c : RGBA) :
    List (List (Option PointVisual)) → Option (List (List (Option PointVisual)))
  | [] => some []
  | row :: t => (setRowPV w c row).bind (fun r' => (setAllPV w c t).map (r' :: ·))

/-- `updateContactLineProperties` (lines 257-283). -/
def updateContactLineProperties (fp : Vec3) (fo : Quat4) (s : DisplayState) :
    Option DisplayState :=
  let w := s.contact_line_width
  let c := contactDrawColor s
  match s.contact_style with
  | .BILLBOARDS =>
    (setAllBB w c s.contact_billboard_line).map
      (fun l => { s with contact_billboard_line := l })
  | .LINES => if s.is_info then processContactTrajectory fp fo s else some s
  | .POINTS =>
    (setAllPV w c s.contact_points).map (fun l => { s with contact_points := l })

/-! ## Concrete fixtures -/

/-- The origin. -/
def v0 : Vec3 := ⟨0, 0, 0⟩

/-- The identity quaternion, i.e. an identity frame transform. -/
def qId : Quat4 := ⟨0, 0, 0, 1⟩

/-- A finite raw point. -/
def fpt (a b c : ℚ) : Point3F := ⟨.fin a, .fin b, .fin c⟩

/-- The finite identity raw quaternion. -/
def qfId : Quat4F := ⟨.fin 0, .fin 0, .fin 0, .fin 1⟩

/-- A display state fresh out of the constructor (lines 33-95): both groups
enabled, the constructor's default property values, no drawables, no message.
The two arguments pick the CoM and the contact render style. -/
def initState (cs ks : LineStyle) : DisplayState :=
  { is_info := false, com_enable := true, contact_enable := true,
    com_style := cs, com_line_width := 1/100, com_color := ⟨0, 1/3, 1, 1⟩,
    com_scale := 1, com_alpha := 1,
    contact_style := ks, contact_line_width := 1/100,
    contact_color := ⟨1, 0, 127/255, 1⟩, contact_alpha := 1,
    com_billboard_line := none, com_manual_object := none, com_points := [],
    com_axes := [], contact_billboard_line := [], contact_manual_object := [],
    contact_points := [], last_point_position := ⟨0, 0, 0⟩, msg := none }

/-- The end-to-end scenario of the spec: three steps, CoM positions
`(0,0,0),(0,0,1),(0,0,2)`, contact `left_foot` present in steps 0-1 only and
`right_foot` present in steps 1-2 only (each step lists its contacts in
first-appearance order). -/
def msgC1 : WholeBodyTrajectory :=
  ⟨[⟨fpt 0 0 0, qfId, [⟨"left_foot", fpt 1 0 0⟩]⟩,
    ⟨fpt 0 0 1, qfId, [⟨"left_foot", fpt 1 0 1⟩, ⟨"right_foot", fpt 2 0 1⟩]⟩,
    ⟨fpt 0 0 2, qfId, [⟨"right_foot", fpt 2 0 2⟩]⟩]⟩

/-- A one-step trajectory with the CoM at `(5,0,0)` and no contacts. -/
def msgC5 : WholeBodyTrajectory := ⟨[⟨fpt 5 0 0, qfId, []⟩]⟩

/-! ## Claim theorems -/

/-- C1, counterexample: on the spec's end-to-end scenario (identity frame
transform, Line style) the two contact line strips get 3 and 2 vertices, not
2 and 2: at step 2 the `left_foot` track's last-known index 0 is still in
range for the one-element contact array, so the track is not treated as
absent and receives `right_foot`'s sample. -/
theorem C1_counterexample :
    (processMessage v0 qId msgC1 (initState .LINES .LINES)).map (fun s =>
        s.contact_manual_object.map (Option.map (fun mo => mo.vertices.length))) =
      some [some 3, some 2] ∧
    ([some 3, some 2] : List (Option ℕ)) ≠ [some 2, some 2] :=
  ⟨by decide, by decide⟩

/-- C1, amended: on the scenario the display produces one CoM line strip with
the 3 CoM vertices, a `right_foot` strip built from its samples of steps 1-2,
and a `left_foot` strip with 3 vertices: its samples of steps 0-1 followed, at
step 2, by the sample at its last-known array index 0 — which is `right_foot`'s
position — because a track contributes no point at a step only when its
last-known index is out of range there, and index 0 is in range at step 2. -/
theorem C1_amended_scenario :
    (processMessage v0 qId msgC1 (initState .LINES .LINES)).map (fun s =>
        (s.com_manual_object.map (fun mo => mo.vertices.map Prod.fst),
         s.contact_manual_object.map (Option.map (fun mo => mo.vertices.map Prod.fst)))) =
      some (some [⟨0,0,0⟩, ⟨0,0,1⟩, ⟨0,0,2⟩],
            [some [⟨1,0,0⟩, ⟨1,0,1⟩, ⟨2,0,2⟩], some [⟨2,0,1⟩, ⟨2,0,2⟩]]) := by
  decide

/-- C4: processing a message with an empty state sequence crashes in Line
style — `processCoMTrajectory` unconditionally calls `end()` on the CoM
manual object (line 405) that no loop iteration created, a null dereference —
while in Billboard style the same message correctly degenerates to no
drawables.  The claim says no input is fatal for every style; the code
contradicts this exact safety intent for the Line style. -/
theorem C4_empty_lines_crash :
    processMessage v0 qId ⟨[]⟩ (initState .LINES .LINES) = none ∧
    processMessage v0 qId ⟨[]⟩ (initState .BILLBOARDS .BILLBOARDS) =
      some { initState .BILLBOARDS .BILLBOARDS with msg := some ⟨[]⟩, is_info := true } :=
  ⟨by decide, by decide⟩

/-- C5, counterexample: reprocessing the same one-step message a second time
(as a fixed-frame change does) produces no axes marker at all: the first pass
emits one marker at `(5,0,0)` and leaves `last_point_position_` there, and the
second pass compares the first sample against that carried-over position
instead of starting from a no-previous state, so the first CoM sample of the
second pass gets no orientation marker. -/
theorem C5_counterexample :
    (processMessage v0 qId msgC5 (initState .BILLBOARDS .BILLBOARDS)).map
        (fun s => s.com_axes.length) = some 1 ∧
    ((processMessage v0 qId msgC5 (initState .BILLBOARDS .BILLBOARDS)).bind
        (processCoMTrajectory v0 qId)).map (fun s => s.com_axes.length) = some 0 :=
  ⟨by decide, by decide⟩

/-- C6: `sanitizePoint` and `sanitizeQuat` are idempotent; they are the
identity on all-finite inputs; a non-finite position maps to the zero vector
and a non-finite quaternion to the identity quaternion `(0,0,0,1)`. -/
theorem C6_sanitize_idempotent :
    (∀ p, sanitizePoint (sanitizePoint p) = sanitizePoint p) ∧
    (∀ q, sanitizeQuat (sanitizeQuat q) = sanitizeQuat q) ∧
    (∀ p, p.allFinite = true → sanitizePoint p = p) ∧
    (∀ q, q.allFinite = true → sanitizeQuat q = q) ∧
    (∀ p, p.allFinite = false → sanitizePoint p = zeroPoint3F) ∧
    (∀ q, q.allFinite = false → sanitizeQuat q = identQuat4F) := by
  refine ⟨?_, ?_, ?_, ?_, ?_, ?_⟩
  · intro p
    by_cases h : p.allFinite <;> simp [sanitizePoint, h]
  · intro q
    by_cases h : q.allFinite <;> simp [sanitizeQuat, h]
  · intro p h
    simp [sanitizePoint, h]
  · intro q h
    simp [sanitizeQuat, h]
  · intro p h
    simp [sanitizePoint, h]
  · intro q h
    simp [sanitizeQuat, h]

/-- C6 witness: the theorem applied at a finite point, a quaternion with a NaN
component, and a point with NaN and infinite components. -/
theorem C6_sanitize_idempotent_witness :
    sanitizePoint (fpt 1 2 3) = fpt 1 2 3 ∧
    sanitizeQuat (sanitizeQuat ⟨.nan, .fin 0, .fin 0, .fin 1⟩) =
      sanitizeQuat ⟨.nan, .fin 0, .fin 0, .fin 1⟩ ∧
    sanitizePoint ⟨.nan, .fin 0, .posInf⟩ = zeroPoint3F :=
  ⟨C6_sanitize_idempotent.2.2.1 _ (by decide),
   C6_sanitize_idempotent.2.1 _,
   C6_sanitize_idempotent.2.2.2.2.1 _ (by decide)⟩

/-- C7, counterexample: the source compares with `>=`, not with a strict
`exceeds`: with scale 0 and a candidate equal to the last emitted position the
squared distance 0 does not exceed `scale^2 * 0.0032 = 0`, yet `should_emit`
returns true. -/
theorem C7_counterexample :
    shouldEmit ⟨0, 0, 0⟩ ⟨0, 0, 0⟩ 0 = true ∧
    ¬ (sqDist ⟨0, 0, 0⟩ ⟨0, 0, 0⟩ > (0 : ℚ) ^ 2 * (0.0032 : ℚ)) := by
  constructor
  · decide
  · norm_num [sqDist]

/-- C7, amended: `should_emit` returns true iff the squared distance from the
last emitted position is greater than or equal to `scale^2 * 0.0032`; in
particular with scale 1 and last position the origin it returns true for the
candidate `(0.1,0,0)` and false for `(0.05,0,0)`. -/
theorem C7_amended_should_emit :
    (∀ cand last scale : _, shouldEmit cand last scale = true ↔
        sqDist cand last ≥ scale ^ 2 * (0.0032 : ℚ)) ∧
    shouldEmit ⟨1/10, 0, 0⟩ ⟨0, 0, 0⟩ 1 = true ∧
    shouldEmit ⟨1/20, 0, 0⟩ ⟨0, 0, 0⟩ 1 = false := by
  refine ⟨fun c l s => ?_, by decide, by decide⟩
  simp [shouldEmit, pow_two]

/-- C7 witness: the amended equivalence applied at the exact-threshold input
`scale = 25`, candidate `(1,1,0)`, last `(0,0,0)` (squared distance 2, equal to
`25^2 * 0.0032`). -/
theorem C7_amended_should_emit_witness :
    shouldEmit ⟨1, 1, 0⟩ ⟨0, 0, 0⟩ 25 = true :=
  (C7_amended_should_emit.1 ⟨1, 1, 0⟩ ⟨0, 0, 0⟩ 25).mpr (by norm_num [sqDist])

/-- C10: if the CoM style is Billboards and no CoM billboard line exists, a
CoM colour/width/scale/alpha change dereferences the null billboard handle
instead of being a no-op; in particular this happens right after the CoM group
is disabled (which nulls the handle). -/
theorem C10_null_billboard_deref (s : DisplayState) (fp : Vec3) (fo : Quat4)
    (h1 : s.com_style = .BILLBOARDS) (h2 : s.com_billboard_line = none) :
    updateCoMLineProperties fp fo s = none ∧
    updateCoMLineProperties fp fo (updateCoMEnable false s) = none := by
  constructor
  · simp [updateCoMLineProperties, h1, h2]
  · simp [updateCoMLineProperties, updateCoMEnable, h1]

/-- C10 witness: the theorem applied to the fresh display state in Billboard
style (no message received yet, so no billboard exists). -/
theorem C10_null_billboard_deref_witness :
    updateCoMLineProperties v0 qId (initState .BILLBOARDS .BILLBOARDS) = none ∧
    updateCoMLineProperties v0 qId (updateCoMEnable false (initState .BILLBOARDS .BILLBOARDS)) = none :=
  C10_null_billboard_deref (initState .BILLBOARDS .BILLBOARDS) v0 qId rfl rfl

/-- C5, amended: the downsampler's last emitted position is a persistent
member that is not reset between passes.  For a one-step trajectory, under any
style, the pass emits an axes marker at the first (only) CoM sample iff that
sample's world position is at squared distance at least `scale^2 * 0.0032`
from the position carried over from before the pass, and the carried position
is updated only on emission — so the first sample of a pass does not always
receive a marker. -/
theorem C5_amended_axes_carryover (s : DisplayState) (fp : Vec3) (fo : Quat4)
    (st : WholeBodyState) (h1 : s.com_enable = true) (h2 : s.msg = some ⟨[st]⟩) :
    (processCoMTrajectory fp fo s).map
        (fun s' => (s'.com_axes.length, s'.last_point_position)) =
      some (if shouldEmit (applyTransform fp fo (sanitizePoint st.com_position).toVec3)
                s.last_point_position s.com_scale
            then (1, applyTransform fp fo (sanitizePoint st.com_position).toVec3)
            else (0, s.last_point_position)) := by
  cases hs : s.com_style <;>
    simp only [processCoMTrajectory, h1, h2, hs, if_true, comLoop, comStep,
      pushBackCoMAxes, Option.bind_some, Option.bind_eq_bind] <;>
    by_cases hE : shouldEmit (applyTransform fp fo (sanitizePoint st.com_position).toVec3)
        s.last_point_position s.com_scale <;>
    simp [hE]

/-- C5 witness: the amended theorem applied to a state that already carries
the one-step message `msgC5` (CoM at `(5,0,0)`). -/
theorem C5_amended_axes_carryover_witness :
    (processCoMTrajectory v0 qId { initState .BILLBOARDS .BILLBOARDS with
        msg := some msgC5, is_info := true }).map
        (fun s' => (s'.com_axes.length, s'.last_point_position)) =
      some (if shouldEmit (applyTransform v0 qId (sanitizePoint (fpt 5 0 0)).toVec3)
                ({ initState .BILLBOARDS .BILLBOARDS with
                    msg := some msgC5, is_info := true } : DisplayState).last_point_position
                ({ initState .BILLBOARDS .BILLBOARDS with
                    msg := some msgC5, is_info := true } : DisplayState).com_scale
            then (1, applyTransform v0 qId (sanitizePoint (fpt 5 0 0)).toVec3)
            else (0, ({ initState .BILLBOARDS .BILLBOARDS with
                    msg := some msgC5, is_info := true } : DisplayState).last_point_position)) :=
  C5_amended_axes_carryover _ v0 qId ⟨fpt 5 0 0, qfId, []⟩ rfl rfl

/-! ## Property-change behaviour (claim C8) -/

lemma setAllBB_all_some (w : ℚ) (c : RGBA) (l : List (Option BillboardLine))
    (h : ∀ ob ∈ l, ob ≠ none) :
    setAllBB w c l = some (l.map (Option.map
      (fun b => { b with lineWidth := w, color := some c }))) := by
  induction l with
  | nil => simp [setAllBB]
  | cons hd tl ih =>
    cases hd with
    | none => exact absurd rfl (h none (List.mem_cons_self _ _))
    | some b =>
      simp [setAllBB, ih (fun ob hob => h ob (List.mem_cons_of_mem _ hob))]

lemma setRowPV_all_some (w : ℚ) (c : RGBA) (row : List (Option PointVisual))
    (h : ∀ o ∈ row, o ≠ none) :
    setRowPV w c row = some (row.map (Option.map
      (fun pv => { pv with color := c, radius := w }))) := by
  induction row with
  | nil => simp [setRowPV]
  | cons hd tl ih =>
    cases hd with
    | none => exact absurd rfl (h none (List.mem_cons_self _ _))
    | some pv =>
      simp [setRowPV, ih (fun o ho => h o (List.mem_cons_of_mem _ ho))]

lemma setAllPV_all_some (w : ℚ) (c : RGBA) (l : List (List (Option PointVisual)))
    (h : ∀ row ∈ l, ∀ o ∈ row, o ≠ none) :
    setAllPV w c l = some (l.map (List.map (Option.map
      (fun pv => { pv with color := c, radius := w })))) := by
  induction l with
  | nil => simp [setAllPV]
  | cons hd tl ih =>
    rw [setAllPV, setRowPV_all_some w c hd (h hd (List.mem_cons_self _ _)),
      ih (fun row hrow => h row (List.mem_cons_of_mem _ hrow))]
    rfl

/-- C8: a colour/width/scale/alpha change in Billboard or Point style writes
the new attributes onto the existing drawables in place — every drawable keeps
its identity and its vertex data, only width/colour (and axes alpha/scale) are
rewritten — while the same change in Line style reruns the full trajectory
processing for that group. -/
theorem C8_property_updates (s : DisplayState) (fp : Vec3) (fo : Quat4) :
    (∀ b, s.com_style = .BILLBOARDS → s.com_billboard_line = some b →
      updateCoMLineProperties fp fo s = some { s with
        com_billboard_line :=
          some { b with lineWidth := s.com_line_width, color := some (comDrawColor s) },
        com_axes := s.com_axes.map (axesUpdate s.com_alpha s.com_scale) }) ∧
    (s.com_style = .POINTS →
      updateCoMLineProperties fp fo s = some { s with
        com_points := s.com_points.map
          (fun pv => { pv with color := comDrawColor s, radius := s.com_line_width }),
        com_axes := s.com_axes.map (axesUpdate s.com_alpha s.com_scale) }) ∧
    (s.com_style = .LINES → s.is_info = true →
      updateCoMLineProperties fp fo s = processCoMTrajectory fp fo s) ∧
    (s.contact_style = .BILLBOARDS → (∀ ob ∈ s.contact_billboard_line, ob ≠ none) →
      updateContactLineProperties fp fo s = some { s with
        contact_billboard_line := s.contact_billboard_line.map (Option.map
          (fun b => { b with lineWidth := s.contact_line_width,
                             color := some (contactDrawColor s) })) }) ∧
    (s.contact_style = .POINTS → (∀ row ∈ s.contact_points, ∀ o ∈ row, o ≠ none) →
      updateContactLineProperties fp fo s = some { s with
        contact_points := s.contact_points.map (List.map (Option.map
          (fun pv => { pv with color := contactDrawColor s,
                               radius := s.contact_line_width }))) }) ∧
    (s.contact_style = .LINES → s.is_info = true →
      updateContactLineProperties fp fo s = processContactTrajectory fp fo s) := by
  refine ⟨?_, ?_, ?_, ?_, ?_, ?_⟩
  · intro b h1 h2
    simp [updateCoMLineProperties, h1, h2]
  · intro h1
    simp [updateCoMLineProperties, h1]
  · intro h1 h2
    simp [updateCoMLineProperties, h1, h2]
  · intro h1 h2
    simp [updateContactLineProperties, h1, setAllBB_all_some _ _ _ h2]
  · intro h1 h2
    simp [updateContactLineProperties, h1, setAllPV_all_some _ _ _ h2]
  · intro h1 h2
    simp [updateContactLineProperties, h1, h2]

/-- A billboard line with one point, for the C8 witness. -/
def bW8 : BillboardLine :=
  { numLines := 1, maxPointsPerLine := 3, lineWidth := 1/100, color := none,
    points := [(⟨1, 2, 3⟩, ⟨1, 1, 1, 1⟩)] }

/-- A display state in CoM Billboard style holding `bW8`, for the C8 witness. -/
def sW8 : DisplayState :=
  { initState .BILLBOARDS .LINES with com_billboard_line := some bW8 }

/-- C8 witness: the Billboard conjunct applied to `sW8`: the billboard keeps
its vertex data and only width/colour change. -/
theorem C8_property_updates_witness :
    updateCoMLineProperties v0 qId sW8 = some { sW8 with
      com_billboard_line :=
        some { bW8 with lineWidth := sW8.com_line_width, color := some (comDrawColor sW8) },
      com_axes := sW8.com_axes.map (axesUpdate sW8.com_alpha sW8.com_scale) } :=
  (C8_property_updates sW8 v0 qId).1 bW8 rfl rfl

/-! ## Track assignment (claim C2) -/

/-- Index of the first occurrence of a string in a list, if any. -/
def idxOf? (x : String) : List String → Option ℕ
  | [] => none
  | y :: t => if x = y then some 0 else (idxOf? x t).map (· + 1)

/-- The distinct contact names in first-appearance order, continuing from an
already-seen prefix. -/
def firstSeenFrom : List String → List String → List String
  | seen, [] => seen
  | seen, n :: t => firstSeenFrom (if n ∈ seen then seen else seen ++ [n]) t

/-- The distinct contact names of a trajectory in first-appearance order. -/
def firstSeen (l : List String) : List String := firstSeenFrom [] l

lemma idxOf?_eq_none_iff (x : String) (l : List String) :
    idxOf? x l = none ↔ x ∉ l := by
  induction l with
  | nil => simp [idxOf?]
  | cons y t ih =>
    by_cases hxy : x = y
    · simp [idxOf?, hxy]
    · simp [idxOf?, hxy, ih]

lemma mapFind?_mapInsert (k : String) (v : ℕ) (x : String) (l : List (String × ℕ))
    (h : mapFind? k l = none) :
    mapFind? x (mapInsert k v l) = if x = k then some v else mapFind? x l := by
  induction l with
  | nil =>
    by_cases hxk : x = k <;> simp [mapInsert, mapFind?, hxk]
  | cons hd t ih =>
    obtain ⟨k', v'⟩ := hd
    have hkk' : ¬(k = k') := by
      intro hq
      simp [mapFind?, hq] at h
    have ht : mapFind? k t = none := by
      simpa [mapFind?, hkk'] using h
    by_cases hlt : strLt k k'
    · by_cases hxk : x = k <;> by_cases hxk' : x = k' <;>
        simp_all [mapInsert, mapFind?, hlt]
    · by_cases hxk : x = k <;> by_cases hxk' : x = k' <;>
        simp_all [mapInsert, mapFind?, hlt, ih]

lemma idxOf?_append_new (x n : String) (seen : List String) (h : n ∉ seen) :
    idxOf? x (seen ++ [n]) =
      if x = n then some seen.length else idxOf? x seen := by
  induction seen with
  | nil => by_cases hxn : x = n <;> simp [idxOf?, hxn]
  | cons y t ih =>
    have hn : n ∉ t := fun hmem => h (List.mem_cons_of_mem _ hmem)
    have hyn : ¬(y = n) := by
      intro hq
      exact h (by simp [hq])
    have hny : ¬(n = y) := fun hq => hyn hq.symm
    by_cases hxy : x = y
    · simp [idxOf?, hxy, hyn]
    · by_cases hxn : x = n
      · subst hxn
        simp [idxOf?, hxy, hny, ih hn]
      · simp [idxOf?, hxy, hxn, hny, ih hn]

lemma assignFold_invariant (ns : List String) (map : List (String × ℕ)) (ctr : ℕ)
    (seen : List String)
    (hmap : ∀ x, mapFind? x map = idxOf? x seen) (hctr : ctr = seen.length) :
    (∀ x, mapFind? x (ns.foldl assignContact (map, ctr)).1 =
        idxOf? x (firstSeenFrom seen ns)) ∧
    (ns.foldl assignContact (map, ctr)).2 = (firstSeenFrom seen ns).length := by
  induction ns generalizing map ctr seen with
  | nil => exact ⟨hmap, by simpa [firstSeenFrom] using hctr⟩
  | cons n t ih =>
    rw [List.foldl_cons, firstSeenFrom]
    by_cases hn : n ∈ seen
    · have hfind : mapFind? n map ≠ none := by
        rw [hmap n]
        intro hnone
        exact (idxOf?_eq_none_iff n seen).mp hnone hn
      have hstep : assignContact (map, ctr) n = (map, ctr) := by
        unfold assignContact
        cases hf : mapFind? n map with
        | none => exact absurd hf hfind
        | some i => rfl
      rw [hstep, if_pos hn]
      exact ih map ctr seen hmap hctr
    · have hfind : mapFind? n map = none := by
        rw [hmap n, idxOf?_eq_none_iff]
        exact hn
      have hstep : assignContact (map, ctr) n = (mapInsert n ctr map, ctr + 1) := by
        unfold assignContact
        rw [hfind]
      rw [hstep, if_neg hn]
      refine ih _ _ (seen ++ [n]) (fun x => ?_) (by simp [hctr])
      rw [mapFind?_mapInsert n ctr x map hfind, idxOf?_append_new x n seen hn, hctr]
      by_cases hx : x = n <;> simp [hx, hmap x]

lemma mem_firstSeenFrom (x : String) (ns seen : List String) :
    x ∈ firstSeenFrom seen ns ↔ x ∈ seen ∨ x ∈ ns := by
  induction ns generalizing seen with
  | nil => simp [firstSeenFrom]
  | cons n t ih =>
    rw [firstSeenFrom]
    by_cases hn : n ∈ seen
    · rw [if_pos hn, ih]
      constructor
      · rintro (h | h)
        · exact Or.inl h
        · exact Or.inr (List.mem_cons_of_mem _ h)
      · rintro (h | h)
        · exact Or.inl h
        · rcases List.mem_cons.mp h with rfl | h
          · exact Or.inl hn
          · exact Or.inr h
    · rw [if_neg hn, ih]
      simp only [List.mem_append, List.mem_singleton, List.mem_cons]
      tauto

lemma nodup_firstSeenFrom (ns seen : List String) (h : seen.Nodup) :
    (firstSeenFrom seen ns).Nodup := by
  induction ns generalizing seen with
  | nil => exact h
  | cons n t ih =>
    rw [firstSeenFrom]
    by_cases hn : n ∈ seen
    · rw [if_pos hn]
      exact ih seen h
    · rw [if_neg hn]
      refine ih _ ?_
      simp [List.nodup_append, h, hn]

lemma firstSeen_length_eq_card (l : List String) :
    (firstSeen l).length = l.toFinset.card := by
  have h1 : (firstSeen l).Nodup := nodup_firstSeenFrom l [] (by simp)
  have h2 : (firstSeen l).toFinset = l.toFinset := by
    ext x
    simp [List.mem_toFinset, firstSeen, mem_firstSeenFrom]
  rw [← List.toFinset_card_of_nodup h1, h2]

lemma countTrajPass_eq_flat (traj : List WholeBodyState)
    (init : List (String × ℕ) × ℕ) :
    traj.foldl (fun a st => st.contacts.foldl (fun a c => assignContact a c.name) a)
        init =
      (allContactNames traj).foldl assignContact init := by
  induction traj generalizing init with
  | nil => simp [allContactNames]
  | cons st t ih =>
    rw [List.foldl_cons, ih]
    have hsplit : allContactNames (st :: t) =
        st.contacts.map ContactState.name ++ allContactNames t := by
      simp [allContactNames]
    rw [hsplit, List.foldl_append, List.foldl_map]

lemma scanContacts_assign (style : LineStyle) (w : ℚ) (n : ℕ)
    (cs : List ContactState) (k : ℕ) (acc : ContactAcc) :
    ((scanContacts style w n cs k acc).trajIdMap,
     (scanContacts style w n cs k acc).ctr) =
      cs.foldl (fun a c => assignContact a c.name) (acc.trajIdMap, acc.ctr) := by
  induction cs generalizing k acc with
  | nil => simp [scanContacts]
  | cons c t ih =>
    rw [scanContacts, List.foldl_cons]
    cases hf : mapFind? c.name acc.trajIdMap with
    | none =>
      cases style <;> simp [hf, assignContact, ih]
    | some swing =>
      by_cases hk : k ≠ natFindD acc.vecId swing 0 <;>
        simp [hf, hk, assignContact, ih]

lemma scanContacts_lengths (style : LineStyle) (w : ℚ) (n : ℕ)
    (cs : List ContactState) (k : ℕ) (acc : ContactAcc) :
    (scanContacts style w n cs k acc).billboards.length = acc.billboards.length ∧
    (scanContacts style w n cs k acc).manuals.length = acc.manuals.length ∧
    (scanContacts style w n cs k acc).rows = acc.rows := by
  induction cs generalizing k acc with
  | nil => simp [scanContacts]
  | cons c t ih =>
    rw [scanContacts]
    cases hf : mapFind? c.name acc.trajIdMap with
    | none =>
      cases style <;> simp [hf, ih, List.length_set]
    | some swing =>
      by_cases hk : k ≠ natFindD acc.vecId swing 0 <;> simp [hf, hk, ih]

lemma plotTracks_preserves (fp : Vec3) (fo : Quat4) (style : LineStyle)
    (color : RGBA) (w : ℚ) (cs : List ContactState) (i : ℕ)
    (entries : List (String × ℕ)) (cidx : ℕ) (acc res : ContactAcc)
    (h : plotTracks fp fo style color w cs i entries cidx acc = some res) :
    res.trajIdMap = acc.trajIdMap ∧ res.ctr = acc.ctr ∧ res.vecId = acc.vecId ∧
    res.billboards.length = acc.billboards.length ∧
    res.manuals.length = acc.manuals.length := by
  induction entries generalizing cidx acc with
  | nil =>
    rw [plotTracks] at h
    cases h
    exact ⟨rfl, rfl, rfl, rfl, rfl⟩
  | cons e rest ih =>
    obtain ⟨nm, tid⟩ := e
    rw [plotTracks] at h
    split at h
    · split at h
      · split at h
        · obtain ⟨h1, h2, h3, h4, h5⟩ := ih _ _ h
          simp_all [List.length_set]
        · exact absurd h (by simp)
      · split at h
        · obtain ⟨h1, h2, h3, h4, h5⟩ := ih _ _ h
          simp_all [List.length_set]
        · exact absurd h (by simp)
      · split at h
        · exact absurd h (by simp)
        · split at h
          · obtain ⟨h1, h2, h3, h4, h5⟩ := ih _ _ h
            simp_all [List.length_set]
          · exact absurd h (by simp)
    · obtain ⟨h1, h2, h3, h4, h5⟩ := ih _ _ h
      simp_all

lemma contactStep_assign (fp : Vec3) (fo : Quat4) (style : LineStyle)
    (color : RGBA) (w : ℚ) (n i : ℕ) (st : WholeBodyState) (acc res : ContactAcc)
    (h : contactStep fp fo style color w n i st acc = some res) :
    (res.trajIdMap, res.ctr) =
      st.contacts.foldl (fun a c => assignContact a c.name) (acc.trajIdMap, acc.ctr) ∧
    res.billboards.length = acc.billboards.length ∧
    res.manuals.length = acc.manuals.length := by
  simp only [contactStep] at h
  have hassign := scanContacts_assign style w n st.contacts 0 acc
  have hlen := scanContacts_lengths style w n st.contacts 0 acc
  by_cases hp : style = .POINTS
  · rw [if_pos hp] at h
    obtain ⟨p1, p2, p3, p4, p5⟩ :=
      plotTracks_preserves _ _ _ _ _ _ _ _ _ _ _ h
    refine ⟨?_, ?_, ?_⟩
    · rw [← hassign]
      simp [p1, p2]
    · rw [← hlen.1]
      simpa using p4
    · rw [← hlen.2.1]
      simpa using p5
  · rw [if_neg hp] at h
    obtain ⟨p1, p2, p3, p4, p5⟩ :=
      plotTracks_preserves _ _ _ _ _ _ _ _ _ _ _ h
    refine ⟨?_, ?_, ?_⟩
    · rw [← hassign]
      simp [p1, p2]
    · rw [← hlen.1]
      exact p4
    · rw [← hlen.2.1]
      exact p5

lemma contactLoop_assign (fp : Vec3) (fo : Quat4) (style : LineStyle)
    (color : RGBA) (w : ℚ) (n : ℕ) (l : List WholeBodyState) (i : ℕ)
    (acc res : ContactAcc)
    (h : contactLoop fp fo style color w n l i acc = some res) :
    (res.trajIdMap, res.ctr) =
      (allContactNames l).foldl assignContact (acc.trajIdMap, acc.ctr) ∧
    res.billboards.length = acc.billboards.length ∧
    res.manuals.length = acc.manuals.length := by
  induction l generalizing i acc with
  | nil =>
    rw [contactLoop] at h
    cases h
    simp [allContactNames]
  | cons st t ih =>
    rw [contactLoop] at h
    obtain ⟨mid, hmid, hrest⟩ := Option.bind_eq_some.mp h
    obtain ⟨s1, s2, s3⟩ := contactStep_assign _ _ _ _ _ _ _ _ _ _ hmid
    obtain ⟨l1, l2, l3⟩ := ih _ _ hrest
    have hsplit : allContactNames (st :: t) =
        st.contacts.map ContactState.name ++ allContactNames t := by
      simp [allContactNames]
    refine ⟨?_, by rw [l2, s2], by rw [l3, s3]⟩
    rw [l1, hsplit, List.foldl_append, List.foldl_map, s1]

/-- C2: the number of contact tracks allocated by one processed trajectory
equals the number of distinct contact names in it, and the name-to-id
assignment maps each name to its rank in first-appearance order (ids
0,1,2,... handed out monotonically at first appearance, reused afterwards):
the Billboard container is resized to the distinct-name count; the counting
pass returns that count; the assignment built by the passes indexes names by
first-appearance rank; and the second pass's final map and counter are the
pure assignment fold of all contact names in traversal order. -/
theorem C2_track_assignment (s : DisplayState) (fp : Vec3) (fo : Quat4)
    (m : WholeBodyTrajectory)
    (h1 : s.contact_enable = true) (h2 : s.msg = some m)
    (h3 : s.contact_style = .BILLBOARDS) :
    (∀ s', processContactTrajectory fp fo s = some s' →
        s'.contact_billboard_line.length =
          (allContactNames m.trajectory).toFinset.card) ∧
    countTrajPass m.trajectory = (allContactNames m.trajectory).toFinset.card ∧
    (∀ name, mapFind? name (contactAssignment m.trajectory) =
        idxOf? name (firstSeen (allContactNames m.trajectory))) ∧
    (∀ acc res, contactLoop fp fo s.contact_style (contactDrawColor s)
          s.contact_line_width m.trajectory.length m.trajectory 0 acc = some res →
        (res.trajIdMap, res.ctr) =
          (allContactNames m.trajectory).foldl assignContact
            (acc.trajIdMap, acc.ctr)) := by
  have hinv := assignFold_invariant (allContactNames m.trajectory) [] 0 []
    (fun x => by simp [mapFind?, idxOf?]) rfl
  have hcount : countTrajPass m.trajectory =
      (allContactNames m.trajectory).toFinset.card := by
    rw [countTrajPass, countTrajPass_eq_flat, hinv.2]
    exact firstSeen_length_eq_card _
  refine ⟨?_, hcount, fun name => hinv.1 name, fun acc res hl =>
    (contactLoop_assign _ _ _ _ _ _ _ _ _ _ hl).1⟩
  intro s' h'
  simp only [processContactTrajectory, h1, h2, h3, if_true, reduceIte] at h'
  cases hl : contactLoop fp fo LineStyle.BILLBOARDS (contactDrawColor s)
      s.contact_line_width m.trajectory.length m.trajectory 0
      (contactAcc0 LineStyle.BILLBOARDS (countTrajPass m.trajectory)
        m.trajectory.length s) with
  | none => rw [hl] at h'; simp at h'
  | some acc =>
    rw [hl] at h'
    simp only [if_neg (by decide : ¬ (LineStyle.BILLBOARDS = LineStyle.LINES)),
      Option.some.injEq] at h'
    have hlen := (contactLoop_assign _ _ _ _ _ _ _ _ _ _ hl).2.1
    have hacc0 : (contactAcc0 LineStyle.BILLBOARDS (countTrajPass m.trajectory)
        m.trajectory.length s).billboards.length = countTrajPass m.trajectory := by
      simp [contactAcc0]
    rw [← h']
    show acc.billboards.length = _
    exact hlen.trans (hacc0.trans hcount)

/-- The empty trajectory message. -/
def msgE : WholeBodyTrajectory := ⟨[]⟩

/-- A contact-Billboard-style state carrying the empty message. -/
def sW2e : DisplayState :=
  { initState .LINES .BILLBOARDS with msg := some msgE, is_info := true }

/-- A contact-Billboard-style state carrying the three-step scenario message. -/
def sW2c : DisplayState :=
  { initState .LINES .BILLBOARDS with msg := some msgC1, is_info := true }

/-- C2 witness: the theorem applied to the empty message (container count) and
to the three-step scenario message (distinct-name count and rank lookup). -/
theorem C2_track_assignment_witness :
    sW2e.contact_billboard_line.length =
      (allContactNames msgE.trajectory).toFinset.card ∧
    countTrajPass msgC1.trajectory = (allContactNames msgC1.trajectory).toFinset.card ∧
    mapFind? "right_foot" (contactAssignment msgC1.trajectory) =
      idxOf? "right_foot" (firstSeen (allContactNames msgC1.trajectory)) :=
  ⟨(C2_track_assignment sW2e v0 qId msgE rfl rfl rfl).1 sW2e (by decide),
   (C2_track_assignment sW2c v0 qId msgC1 rfl rfl rfl).2.1,
   (C2_track_assignment sW2c v0 qId msgC1 rfl rfl rfl).2.2.1 "right_foot"⟩

/-! ## Enable-toggle behaviour (claim C3)

In Line style the second pass never reads or writes the Billboard and Point
containers, so its manual-object output is independent of them.  The following
lemmas make that precise. -/

lemma scanContacts_lines_extras (w : ℚ) (n : ℕ) (cs : List ContactState)
    (k : ℕ) (tm : List (String × ℕ)) (vi : List (ℕ × ℕ)) (ctr : ℕ)
    (b bb : List (Option BillboardLine)) (mn : List (Option ManualObject))
    (r rows : List (List (Option PointVisual))) :
    scanContacts .LINES w n cs k ⟨tm, vi, ctr, bb, mn, rows⟩ =
      { scanContacts .LINES w n cs k ⟨tm, vi, ctr, b, mn, r⟩ with
        billboards := bb, rows := rows } := by
  induction cs generalizing k tm vi ctr mn with
  | nil => simp [scanContacts]
  | cons c t ih =>
    rw [scanContacts, scanContacts]
    cases hf : mapFind? c.name tm with
    | none =>
      simpa [hf] using ih (k + 1) (mapInsert c.name ctr tm) (natUpsert ctr k vi)
        (ctr + 1) (mn.set ctr (some ⟨true, n, [], false⟩))
    | some swing =>
      by_cases hk : k ≠ natFindD vi swing 0
      · simpa [hf, hk] using ih (k + 1) tm (natUpsert swing k vi) ctr mn
      · simpa [hf, hk] using ih (k + 1) tm vi ctr mn

lemma plotTracks_lines_extras (fp : Vec3) (fo : Quat4) (color : RGBA) (w : ℚ)
    (cs : List ContactState) (i : ℕ) (entries : List (String × ℕ)) (cidx : ℕ)
    (tm : List (String × ℕ)) (vi : List (ℕ × ℕ)) (ctr : ℕ)
    (b bb : List (Option BillboardLine)) (mn : List (Option ManualObject))
    (r rows : List (List (Option PointVisual))) :
    plotTracks fp fo .LINES color w cs i entries cidx ⟨tm, vi, ctr, bb, mn, rows⟩ =
      (plotTracks fp fo .LINES color w cs i entries cidx ⟨tm, vi, ctr, b, mn, r⟩).map
        (fun a => { a with billboards := bb, rows := rows }) := by
  induction entries generalizing cidx mn with
  | nil => simp [plotTracks]
  | cons e rest ih =>
    obtain ⟨nm, tid⟩ := e
    rw [plotTracks, plotTracks]
    by_cases hid : natFindD vi tid 0 < cs.length
    · rw [dif_pos hid, dif_pos hid]
      cases hmo : mn[tid]? with
      | none => simp [hmo]
      | some omo =>
        cases omo with
        | none => simp [hmo]
        | some mo =>
          simpa [hmo] using ih cidx (mn.set tid (some { mo with
            vertices := mo.vertices ++
              [(applyTransform fp fo (sanitizePoint cs[natFindD vi tid 0].position).toVec3,
                color)] }))
    · rw [dif_neg hid, dif_neg hid]
      exact ih cidx mn

lemma contactStep_lines_extras (fp : Vec3) (fo : Quat4) (color : RGBA) (w : ℚ)
    (n i : ℕ) (st : WholeBodyState)
    (tm : List (String × ℕ)) (vi : List (ℕ × ℕ)) (ctr : ℕ)
    (b bb : List (Option BillboardLine)) (mn : List (Option ManualObject))
    (r rows : List (List (Option PointVisual))) :
    contactStep fp fo .LINES color w n i st ⟨tm, vi, ctr, bb, mn, rows⟩ =
      (contactStep fp fo .LINES color w n i st ⟨tm, vi, ctr, b, mn, r⟩).map
        (fun a => { a with billboards := bb, rows := rows }) := by
  simp only [contactStep, if_neg (by decide : ¬ (LineStyle.LINES = LineStyle.POINTS)),
    scanContacts_lines_extras w n st.contacts 0 tm vi ctr b bb mn r rows]
  cases hsc : scanContacts .LINES w n st.contacts 0
      (⟨tm, vi, ctr, b, mn, r⟩ : ContactAcc) with
  | mk tm' vi' ctr' b' mn' r' =>
    exact plotTracks_lines_extras fp fo color w st.contacts i tm' 0 tm' vi' ctr'
      b' bb mn' r' rows

lemma contactLoop_lines_extras (fp : Vec3) (fo : Quat4) (color : RGBA) (w : ℚ)
    (n : ℕ) (l : List WholeBodyState) (i : ℕ)
    (tm : List (String × ℕ)) (vi : List (ℕ × ℕ)) (ctr : ℕ)
    (b bb : List (Option BillboardLine)) (mn : List (Option ManualObject))
    (r rows : List (List (Option PointVisual))) :
    contactLoop fp fo .LINES color w n l i ⟨tm, vi, ctr, bb, mn, rows⟩ =
      (contactLoop fp fo .LINES color w n l i ⟨tm, vi, ctr, b, mn, r⟩).map
        (fun a => { a with billboards := bb, rows := rows }) := by
  induction l generalizing i tm vi ctr b mn r with
  | nil => simp [contactLoop]
  | cons st t ih =>
    rw [contactLoop, contactLoop,
      contactStep_lines_extras fp fo color w n i st tm vi ctr b bb mn r rows]
    cases hs : contactStep fp fo .LINES color w n i st
        (⟨tm, vi, ctr, b, mn, r⟩ : ContactAcc) with
    | none => simp
    | some mid =>
      obtain ⟨tm', vi', ctr', b', mn', r'⟩ := mid
      simpa using ih (i + 1) tm' vi' ctr' b' mn' r'

lemma processContactTrajectory_fields (s s1 : DisplayState) (fp : Vec3) (fo : Quat4)
    (h : processContactTrajectory fp fo s = some s1) :
    s1.msg = s.msg ∧ s1.contact_style = s.contact_style ∧
    s1.contact_line_width = s.contact_line_width ∧
    s1.contact_color = s.contact_color ∧ s1.contact_alpha = s.contact_alpha ∧
    s1.contact_enable = s.contact_enable := by
  simp only [processContactTrajectory] at h
  split at h
  · split at h
    · exact absurd h (by simp)
    · split at h
      · exact absurd h (by simp)
      · split at h
        · split at h
          · exact absurd h (by simp)
          · cases h
            simp_all
        · cases h
          simp_all
  · cases h
    simp_all

lemma processContactTrajectory_lines_manuals (s t : DisplayState) (fp : Vec3)
    (fo : Quat4) (hmsg : s.msg = t.msg)
    (hen : s.contact_enable = true) (hent : t.contact_enable = true)
    (hst : s.contact_style = .LINES) (hstt : t.contact_style = .LINES)
    (hw : s.contact_line_width = t.contact_line_width)
    (hc : s.contact_color = t.contact_color)
    (ha : s.contact_alpha = t.contact_alpha) :
    (processContactTrajectory fp fo s).map DisplayState.contact_manual_object =
      (processContactTrajectory fp fo t).map DisplayState.contact_manual_object := by
  have hcol : contactDrawColor s = contactDrawColor t := by
    simp [contactDrawColor, hc, ha]
  cases hm : t.msg with
  | none =>
    simp only [processContactTrajectory, hen, hent, hst, hstt, hmsg, hm, if_true]
  | some m =>
    simp only [processContactTrajectory, hen, hent, hst, hstt, hmsg, hm, hcol, hw,
      if_true, reduceIte]
    have hacc : ∀ u : DisplayState,
        contactAcc0 .LINES (countTrajPass m.trajectory) m.trajectory.length u =
          ⟨[], [], 0, u.contact_billboard_line,
            List.replicate (countTrajPass m.trajectory) none, u.contact_points⟩ :=
      fun u => by simp [contactAcc0]
    rw [hacc s, hacc t,
      contactLoop_lines_extras fp fo (contactDrawColor t) t.contact_line_width
        m.trajectory.length m.trajectory 0 [] [] 0 []
        s.contact_billboard_line (List.replicate (countTrajPass m.trajectory) none)
        [] s.contact_points,
      contactLoop_lines_extras fp fo (contactDrawColor t) t.contact_line_width
        m.trajectory.length m.trajectory 0 [] [] 0 []
        t.contact_billboard_line (List.replicate (countTrajPass m.trajectory) none)
        [] t.contact_points]
    cases hb : contactLoop fp fo .LINES (contactDrawColor t) t.contact_line_width
        m.trajectory.length m.trajectory 0
        (⟨[], [], 0, [], List.replicate (countTrajPass m.trajectory) none, []⟩ :
          ContactAcc) with
    | none => simp
    | some a =>
      cases he : endManuals a.manuals a.ctr with
      | none => simp [he]
      | some ms => simp [he]

/-- C3, counterexample: after receiving the three-step scenario message in
Line style, toggling the contact group off destroys its strips, and toggling
it back on (message unchanged) does not rebuild them: the strip data is not
equal to the original build. -/
theorem C3_counterexample :
    (processMessage v0 qId msgC1 (initState .LINES .LINES)).map (fun s1 =>
      decide ((updateContactEnable true (updateContactEnable false s1)).contact_manual_object
          = s1.contact_manual_object)) = some false := by
  decide

lemma processCoMTrajectory_own_fields (s s1 : DisplayState) (fp : Vec3)
    (fo : Quat4) (h : processCoMTrajectory fp fo s = some s1) :
    s1.msg = s.msg ∧ s1.com_style = s.com_style ∧ s1.com_enable = s.com_enable ∧
    s1.com_line_width = s.com_line_width ∧ s1.com_color = s.com_color ∧
    s1.com_alpha = s.com_alpha ∧ s1.com_scale = s.com_scale := by
  simp only [processCoMTrajectory] at h
  split at h
  · split at h
    · exact absurd h (by simp)
    · split at h
      · exact absurd h (by simp)
      · split at h
        · split at h
          · exact absurd h (by simp)
          · cases h
            simp_all
        · cases h
          simp_all
  · cases h
    simp_all

lemma comLoop_lines_manual (fp : Vec3) (fo : Quat4) (color : RGBA)
    (w scale alpha : ℚ) (n : ℕ) (l : List WholeBodyState) (i : ℕ)
    (acc acc' : CoMAcc) (hm : acc.manual = acc'.manual) :
    (comLoop fp fo .LINES color w scale alpha n l i acc).map CoMAcc.manual =
      (comLoop fp fo .LINES color w scale alpha n l i acc').map CoMAcc.manual := by
  induction l generalizing i acc acc' with
  | nil => simp [comLoop, hm]
  | cons st t ih =>
    rw [comLoop, comLoop]
    simp only [comStep, ← hm]
    cases hmo : (if i = 0 then
        some { dynamic := true, estimatedCount := n, vertices := [], ended := false }
      else acc.manual : Option ManualObject) with
    | none => simp [hmo]
    | some mo =>
      simp only [hmo, Option.bind_some]
      exact ih _ _ _ rfl

lemma comLoop_lines_manual0 (fp : Vec3) (fo : Quat4) (color : RGBA)
    (w scale alpha : ℚ) (n : ℕ) (st : WholeBodyState) (t : List WholeBodyState)
    (acc acc' : CoMAcc) :
    (comLoop fp fo .LINES color w scale alpha n (st :: t) 0 acc).map CoMAcc.manual =
      (comLoop fp fo .LINES color w scale alpha n (st :: t) 0 acc').map CoMAcc.manual := by
  rw [comLoop, comLoop]
  simp only [comStep, if_pos (rfl : (0 : ℕ) = 0), Option.bind_some]
  exact comLoop_lines_manual fp fo color w scale alpha n t 1 _ _ rfl

lemma processCoMTrajectory_lines_manuals (s t : DisplayState) (fp : Vec3)
    (fo : Quat4) (hmsg : s.msg = t.msg)
    (hen : s.com_enable = true) (hent : t.com_enable = true)
    (hst : s.com_style = .LINES) (hstt : t.com_style = .LINES)
    (hw : s.com_line_width = t.com_line_width) (hc : s.com_color = t.com_color)
    (ha : s.com_alpha = t.com_alpha) (hsc : s.com_scale = t.com_scale)
    (hne : ∀ m, t.msg = some m → m.trajectory ≠ []) :
    (processCoMTrajectory fp fo s).map DisplayState.com_manual_object =
      (processCoMTrajectory fp fo t).map DisplayState.com_manual_object := by
  have hcol : comDrawColor s = comDrawColor t := by
    simp [comDrawColor, hc, ha]
  cases hm : t.msg with
  | none =>
    simp only [processCoMTrajectory, hen, hent, hst, hstt, hmsg, hm, if_true]
  | some m =>
    cases htr : m.trajectory with
    | nil => exact absurd htr (hne m hm)
    | cons st rest =>
      simp only [processCoMTrajectory, hen, hent, hst, hstt, hmsg, hm, hcol, hw,
        ha, hsc, htr, if_true, if_pos (rfl : LineStyle.LINES = LineStyle.LINES)]
      have hml := comLoop_lines_manual0 fp fo (comDrawColor t) t.com_line_width
        t.com_scale t.com_alpha (st :: rest).length st rest
        ⟨s.com_billboard_line, s.com_manual_object, s.com_points, [],
         s.last_point_position⟩
        ⟨t.com_billboard_line, t.com_manual_object, t.com_points, [],
         t.last_point_position⟩
      cases hA : comLoop fp fo .LINES (comDrawColor t) t.com_line_width
          t.com_scale t.com_alpha (st :: rest).length (st :: rest) 0
          ⟨s.com_billboard_line, s.com_manual_object, s.com_points, [],
           s.last_point_position⟩ with
      | none =>
        cases hB : comLoop fp fo .LINES (comDrawColor t) t.com_line_width
            t.com_scale t.com_alpha (st :: rest).length (st :: rest) 0
            ⟨t.com_billboard_line, t.com_manual_object, t.com_points, [],
             t.last_point_position⟩ with
        | none => simp [hA, hB]
        | some b => rw [hA, hB] at hml; simp at hml
      | some a =>
        cases hB : comLoop fp fo .LINES (comDrawColor t) t.com_line_width
            t.com_scale t.com_alpha (st :: rest).length (st :: rest) 0
            ⟨t.com_billboard_line, t.com_manual_object, t.com_points, [],
             t.last_point_position⟩ with
        | none => rw [hA, hB] at hml; simp at hml
        | some b =>
          rw [hA, hB] at hml
          simp only [Option.map_some', Option.some.injEq] at hml
          cases hmo : a.manual with
          | none => rw [hml] at hmo; simp [hml, hmo]
          | some mo => rw [hml] at hmo; simp [hml, hmo]

/-- C3, amended: toggling a group off destroys that group's strip and point
drawables immediately — the contact group nulls every billboard, manual-object
and point handle; the CoM group nulls its billboard and manual strip and clears
its point markers while leaving the orientation-axes markers in place — and
touches nothing else.  Toggling the group back on does NOT rebuild: it only
sets the enable flag.  The geometry returns only when the group is next
reprocessed; in Line style that reprocessing of the unchanged message rebuilds
the group's manual-object strips equal to the original build (for the CoM
group on a nonempty trajectory; an empty one crashes, see C4). -/
theorem C3_amended_enable_cycle (fp : Vec3) (fo : Quat4) :
    (∀ x : DisplayState,
      updateCoMEnable false x =
        { x with
            com_enable := false, com_billboard_line := none,
            com_manual_object := none, com_points := [] } ∧
      updateCoMEnable true (updateCoMEnable false x) =
        { updateCoMEnable false x with com_enable := true }) ∧
    (∀ x : DisplayState,
      updateContactEnable false x =
        { x with
            contact_enable := false,
            contact_manual_object := x.contact_manual_object.map (fun _ => none),
            contact_billboard_line := x.contact_billboard_line.map (fun _ => none),
            contact_points := x.contact_points.map (fun _ => []) } ∧
      updateContactEnable true (updateContactEnable false x) =
        { updateContactEnable false x with contact_enable := true }) ∧
    (∀ s s1 : DisplayState, ∀ m : WholeBodyTrajectory,
      s.com_enable = true → s.com_style = .LINES → s.msg = some m →
      m.trajectory ≠ [] → processCoMTrajectory fp fo s = some s1 →
      (processCoMTrajectory fp fo
          (updateCoMEnable true (updateCoMEnable false s1))).map
        DisplayState.com_manual_object = some s1.com_manual_object) ∧
    (∀ s s1 : DisplayState,
      s.contact_enable = true → s.contact_style = .LINES →
      processContactTrajectory fp fo s = some s1 →
      (processContactTrajectory fp fo
          (updateContactEnable true (updateContactEnable false s1))).map
        DisplayState.contact_manual_object = some s1.contact_manual_object) := by
  refine ⟨fun x => ⟨by simp [updateCoMEnable], by simp [updateCoMEnable]⟩,
    fun x => ⟨by simp [updateContactEnable], by simp [updateContactEnable]⟩, ?_, ?_⟩
  · intro s s1 m hen hst hmsg hne hproc
    obtain ⟨f1, f2, f3, f4, f5, f6, f7⟩ :=
      processCoMTrajectory_own_fields s s1 fp fo hproc
    have heq := processCoMTrajectory_lines_manuals
      (updateCoMEnable true (updateCoMEnable false s1)) s fp fo
      (by simp [updateCoMEnable, f1]) (by simp [updateCoMEnable]) hen
      (by simp [updateCoMEnable, f2, hst]) hst
      (by simp [updateCoMEnable, f4]) (by simp [updateCoMEnable, f5])
      (by simp [updateCoMEnable, f6]) (by simp [updateCoMEnable, f7])
      (by intro m' hm'
          rw [hmsg] at hm'
          cases hm'
          exact hne)
    rw [heq, hproc]
    rfl
  · intro s s1 hen hstyle hproc
    obtain ⟨f1, f2, f3, f4, f5, f6⟩ :=
      processContactTrajectory_fields s s1 fp fo hproc
    have heq := processContactTrajectory_lines_manuals
      (updateContactEnable true (updateContactEnable false s1)) s fp fo
      (by simp [updateContactEnable, f1]) (by simp [updateContactEnable]) hen
      (by simp [updateContactEnable, f2, hstyle]) hstyle
      (by simp [updateContactEnable, f3]) (by simp [updateContactEnable, f4])
      (by simp [updateContactEnable, f5])
    rw [heq, hproc]
    rfl

/-- A Line-style state (both groups) carrying the three-step scenario message. -/
def sC3 : DisplayState :=
  { initState .LINES .LINES with msg := some msgC1, is_info := true }

/-- The CoM draw colour of `sC3`. -/
def mcol : RGBA := ⟨0, 1/3, 1, 1⟩

/-- The contact draw colour of `sC3`. -/
def ccol : RGBA := ⟨1, 0, 127/255, 1⟩

/-- The result of the CoM pass on `sC3`: the 3-vertex strip, two axes markers
(the first sample is suppressed by the carried-over origin) and the updated
last emitted position. -/
def sC3m : DisplayState :=
  { sC3 with
    com_manual_object := some ⟨true, 3,
      [(⟨0,0,0⟩, mcol), (⟨0,0,1⟩, mcol), (⟨0,0,2⟩, mcol)], true⟩,
    com_axes := [⟨⟨0,0,1⟩, qId, 1, true, 1⟩, ⟨⟨0,0,2⟩, qId, 1, true, 1⟩],
    last_point_position := ⟨0,0,2⟩ }

/-- The result of the contact pass on `sC3`: the 3- and 2-vertex strips. -/
def sC3r : DisplayState :=
  { sC3 with
    contact_manual_object :=
      [some ⟨true, 3, [(⟨1,0,0⟩, ccol), (⟨1,0,1⟩, ccol), (⟨2,0,2⟩, ccol)], true⟩,
       some ⟨true, 3, [(⟨2,0,1⟩, ccol), (⟨2,0,2⟩, ccol)], true⟩] }

/-- C3 witness: the destruction conjuncts at the processed states, and both
rebuild-equality conjuncts applied to the three-step scenario message in Line
style. -/
theorem C3_amended_enable_cycle_witness :
    (updateCoMEnable false sC3m =
      { sC3m with
          com_enable := false, com_billboard_line := none,
          com_manual_object := none, com_points := [] }) ∧
    (updateContactEnable false sC3r =
      { sC3r with
          contact_enable := false,
          contact_manual_object := sC3r.contact_manual_object.map (fun _ => none),
          contact_billboard_line := sC3r.contact_billboard_line.map (fun _ => none),
          contact_points := sC3r.contact_points.map (fun _ => []) }) ∧
    (processCoMTrajectory v0 qId
        (updateCoMEnable true (updateCoMEnable false sC3m))).map
      DisplayState.com_manual_object = some sC3m.com_manual_object ∧
    (processContactTrajectory v0 qId
        (updateContactEnable true (updateContactEnable false sC3r))).map
      DisplayState.contact_manual_object = some sC3r.contact_manual_object :=
  ⟨((C3_amended_enable_cycle v0 qId).1 sC3m).1,
   ((C3_amended_enable_cycle v0 qId).2.1 sC3r).1,
   (C3_amended_enable_cycle v0 qId).2.2.1 sC3 sC3m msgC1 rfl rfl rfl
     (by decide) (by decide),
   (C3_amended_enable_cycle v0 qId).2.2.2 sC3 sC3r rfl rfl (by decide)⟩

/-! ## Point-style marker poses (claim C9) -/

/-- What holds of every contact marker the Point style creates: it carries the
frame pose, and its stored point is the frame transform applied to the
sanitized contact position — so the renderer, which applies the attached frame
pose again, transforms contact positions twice. -/
def contactMarkerOk (fp : Vec3) (fo : Quat4) (mtraj : List WholeBodyState)
    (pv : PointVisual) : Prop :=
  pv.framePosition = fp ∧ pv.frameOrientation = fo ∧
    ∃ st ∈ mtraj, ∃ c ∈ st.contacts,
      pv.point = applyTransform fp fo (sanitizePoint c.position).toVec3

/-- Every marker present in the Point-style contact rows satisfies
`contactMarkerOk`. -/
def rowsOk (fp : Vec3) (fo : Quat4) (mtraj : List WholeBodyState)
    (rows : List (List (Option PointVisual))) : Prop :=
  ∀ row ∈ rows, ∀ o ∈ row, ∀ pv, o = some pv → contactMarkerOk fp fo mtraj pv

lemma comLoop_points_inv (fp : Vec3) (fo : Quat4) (color : RGBA)
    (w scale alpha : ℚ) (n : ℕ) (mtraj : List WholeBodyState)
    (l : List WholeBodyState) (hl : ∀ st ∈ l, st ∈ mtraj) (i : ℕ)
    (acc res : CoMAcc)
    (hacc : ∀ pv ∈ acc.points, pv.framePosition = fp ∧ pv.frameOrientation = fo ∧
        ∃ st ∈ mtraj, pv.point = (sanitizePoint st.com_position).toVec3)
    (h : comLoop fp fo .POINTS color w scale alpha n l i acc = some res) :
    ∀ pv ∈ res.points, pv.framePosition = fp ∧ pv.frameOrientation = fo ∧
      ∃ st ∈ mtraj, pv.point = (sanitizePoint st.com_position).toVec3 := by
  induction l generalizing i acc with
  | nil =>
    rw [comLoop] at h
    cases h
    exact hacc
  | cons st t ih =>
    rw [comLoop] at h
    obtain ⟨mid, hmid, hrest⟩ := Option.bind_eq_some.mp h
    simp only [comStep, Option.some.injEq] at hmid
    refine ih (fun st' hst' => hl st' (List.mem_cons_of_mem _ hst')) _ _ ?_ hrest
    intro pv hpv
    rw [← hmid] at hpv
    simp only at hpv
    rcases List.mem_append.mp hpv with hpv | hpv
    · by_cases hi : i = 0
      · rw [if_pos hi] at hpv
        cases hpv
      · rw [if_neg hi] at hpv
        exact hacc pv hpv
    · simp only [List.mem_singleton] at hpv
      subst hpv
      exact ⟨rfl, rfl, st, hl st (List.mem_cons_self _ _), rfl⟩

lemma plotTracks_points_inv (fp : Vec3) (fo : Quat4) (color : RGBA) (w : ℚ)
    (mtraj : List WholeBodyState) (st : WholeBodyState) (hst : st ∈ mtraj)
    (i : ℕ) (entries : List (String × ℕ)) (cidx : ℕ) (acc res : ContactAcc)
    (hrows : rowsOk fp fo mtraj acc.rows)
    (h : plotTracks fp fo .POINTS color w st.contacts i entries cidx acc = some res) :
    rowsOk fp fo mtraj res.rows := by
  induction entries generalizing cidx acc with
  | nil =>
    rw [plotTracks] at h
    cases h
    exact hrows
  | cons e rest ih =>
    obtain ⟨nm, tid⟩ := e
    rw [plotTracks] at h
    dsimp only at h
    split at h
    · rename_i hid
      split at h
      · exact absurd h (by simp)
      · rename_i row hrowi
        split at h
        · refine ih _ _ ?_ h
          intro row' hrow' o ho pv hpv
          rcases List.mem_or_eq_of_mem_set hrow' with hmem | hmem
          · exact hrows row' hmem o ho pv hpv
          · subst hmem
            rcases List.mem_or_eq_of_mem_set ho with ho2 | ho2
            · exact hrows row (List.getElem?_mem hrowi) o ho2 pv hpv
            · subst ho2
              cases hpv
              exact ⟨rfl, rfl, st, hst, _, List.getElem_mem hid, rfl⟩
        · exact absurd h (by simp)
    · exact ih _ _ hrows h

lemma contactStep_points_inv (fp : Vec3) (fo : Quat4) (color : RGBA) (w : ℚ)
    (n i : ℕ) (mtraj : List WholeBodyState) (st : WholeBodyState)
    (hst : st ∈ mtraj) (acc res : ContactAcc)
    (hrows : rowsOk fp fo mtraj acc.rows)
    (h : contactStep fp fo .POINTS color w n i st acc = some res) :
    rowsOk fp fo mtraj res.rows := by
  simp only [contactStep, reduceIte] at h
  refine plotTracks_points_inv fp fo color w mtraj st hst i _ _ _ _ ?_ h
  intro row' hrow' o ho pv hpv
  have hscan := (scanContacts_lengths .POINTS w n st.contacts 0 acc).2.2
  have hrow2 : row' ∈ (scanContacts .POINTS w n st.contacts 0 acc).rows.set i
      (List.replicate st.contacts.length none) := hrow'
  rw [hscan] at hrow2
  rcases List.mem_or_eq_of_mem_set hrow2 with hmem | hmem
  · exact hrows row' hmem o ho pv hpv
  · subst hmem
    rcases List.eq_of_mem_replicate ho with rfl
    cases hpv

lemma contactLoop_points_inv (fp : Vec3) (fo : Quat4) (color : RGBA) (w : ℚ)
    (n : ℕ) (mtraj : List WholeBodyState) (l : List WholeBodyState)
    (hl : ∀ st ∈ l, st ∈ mtraj) (i : ℕ) (acc res : ContactAcc)
    (hrows : rowsOk fp fo mtraj acc.rows)
    (h : contactLoop fp fo .POINTS color w n l i acc = some res) :
    rowsOk fp fo mtraj res.rows := by
  induction l generalizing i acc with
  | nil =>
    rw [contactLoop] at h
    cases h
    exact hrows
  | cons st t ih =>
    rw [contactLoop] at h
    obtain ⟨mid, hmid, hrest⟩ := Option.bind_eq_some.mp h
    exact ih (fun st' hst' => hl st' (List.mem_cons_of_mem _ hst')) _ _
      (contactStep_points_inv fp fo color w n i mtraj st
        (hl st (List.mem_cons_self _ _)) acc mid hrows hmid) hrest

lemma processCoMTrajectory_fields (s s1 : DisplayState) (fp : Vec3) (fo : Quat4)
    (h : processCoMTrajectory fp fo s = some s1) :
    s1.msg = s.msg ∧ s1.contact_style = s.contact_style ∧
    s1.contact_enable = s.contact_enable ∧
    s1.contact_points = s.contact_points ∧
    s1.contact_billboard_line = s.contact_billboard_line ∧
    s1.contact_manual_object = s.contact_manual_object ∧
    s1.contact_line_width = s.contact_line_width ∧
    s1.contact_color = s.contact_color ∧ s1.contact_alpha = s.contact_alpha := by
  simp only [processCoMTrajectory] at h
  split at h
  · split at h
    · exact absurd h (by simp)
    · split at h
      · exact absurd h (by simp)
      · split at h
        · split at h
          · exact absurd h (by simp)
          · cases h
            simp_all
        · cases h
          simp_all
  · cases h
    simp_all

lemma processContactTrajectory_com_points (s s1 : DisplayState) (fp : Vec3)
    (fo : Quat4) (h : processContactTrajectory fp fo s = some s1) :
    s1.com_points = s.com_points := by
  simp only [processContactTrajectory] at h
  split at h
  · split at h
    · exact absurd h (by simp)
    · split at h
      · exact absurd h (by simp)
      · split at h
        · split at h
          · exact absurd h (by simp)
          · cases h
            simp_all
        · cases h
          simp_all
  · cases h
    simp_all

lemma processCoMTrajectory_points_inv (u u1 : DisplayState) (fp : Vec3)
    (fo : Quat4) (m : WholeBodyTrajectory)
    (hst : u.com_style = .POINTS) (hpts : u.com_points = [])
    (hmsg : u.msg = some m)
    (h : processCoMTrajectory fp fo u = some u1) :
    ∀ pv ∈ u1.com_points, pv.framePosition = fp ∧ pv.frameOrientation = fo ∧
      ∃ st ∈ m.trajectory, pv.point = (sanitizePoint st.com_position).toVec3 := by
  by_cases hce : u.com_enable = true
  · simp only [processCoMTrajectory, hce, hmsg, hst, if_true, reduceIte] at h
    cases hcl : comLoop fp fo .POINTS (comDrawColor u) u.com_line_width u.com_scale
        u.com_alpha m.trajectory.length m.trajectory 0
        ⟨u.com_billboard_line, u.com_manual_object, u.com_points, [],
         u.last_point_position⟩ with
    | none => rw [hcl] at h; exact absurd h (by simp)
    | some acc =>
      rw [hcl] at h
      dsimp only at h
      rw [if_neg (by decide : ¬ (LineStyle.POINTS = LineStyle.LINES))] at h
      simp only [Option.some.injEq] at h
      have hinv := comLoop_points_inv fp fo (comDrawColor u) u.com_line_width
        u.com_scale u.com_alpha m.trajectory.length m.trajectory m.trajectory
        (fun st hst => hst) 0 _ acc
        (fun pv hpv => absurd (hpts ▸ hpv) (List.not_mem_nil pv)) hcl
      rw [← h]
      exact hinv
  · rw [processCoMTrajectory, if_neg hce] at h
    cases h
    rw [hpts]
    exact fun pv hpv => absurd hpv (List.not_mem_nil pv)

lemma processContactTrajectory_points_inv (u u1 : DisplayState) (fp : Vec3)
    (fo : Quat4) (m : WholeBodyTrajectory)
    (hst : u.contact_style = .POINTS) (hrows0 : u.contact_points = [])
    (hmsg : u.msg = some m)
    (h : processContactTrajectory fp fo u = some u1) :
    rowsOk fp fo m.trajectory u1.contact_points := by
  by_cases hce : u.contact_enable = true
  · simp only [processContactTrajectory, hce, hmsg, hst, if_true, reduceIte] at h
    cases hcl : contactLoop fp fo .POINTS (contactDrawColor u) u.contact_line_width
        m.trajectory.length m.trajectory 0
        (contactAcc0 .POINTS (countTrajPass m.trajectory) m.trajectory.length u) with
    | none => rw [hcl] at h; exact absurd h (by simp)
    | some acc =>
      rw [hcl] at h
      dsimp only at h
      rw [if_neg (by decide : ¬ (LineStyle.POINTS = LineStyle.LINES))] at h
      simp only [Option.some.injEq] at h
      have hinv := contactLoop_points_inv fp fo (contactDrawColor u)
        u.contact_line_width m.trajectory.length m.trajectory m.trajectory
        (fun st hst => hst) 0 _ acc ?_ hcl
      · rw [← h]
        exact hinv
      · intro row hrow o ho pv hpv
        have hrow2 : row ∈ List.replicate m.trajectory.length
            ([] : List (Option PointVisual)) := by
          simpa [contactAcc0] using hrow
        rcases List.eq_of_mem_replicate hrow2 with rfl
        exact absurd ho (List.not_mem_nil o)
  · rw [processContactTrajectory, if_neg hce] at h
    cases h
    rw [hrows0]
    exact fun row hrow => absurd hrow (List.not_mem_nil row)

/-- C9: in Point style every contact marker is created with the already
frame-transformed world position as its point while also carrying the
looked-up frame pose (so the renderer applies the frame transform to contact
positions twice), whereas every CoM point marker is created with the
untransformed local sanitized CoM position plus the same frame pose (the
transform is applied once, by the attached frame). -/
theorem C9_point_markers (s s' : DisplayState) (fp : Vec3) (fo : Quat4)
    (m : WholeBodyTrajectory)
    (h1 : s.com_style = .POINTS) (h2 : s.contact_style = .POINTS)
    (h3 : processMessage fp fo m s = some s') :
    (∀ pv ∈ s'.com_points, pv.framePosition = fp ∧ pv.frameOrientation = fo ∧
        ∃ st ∈ m.trajectory, pv.point = (sanitizePoint st.com_position).toVec3) ∧
    rowsOk fp fo m.trajectory s'.contact_points := by
  simp only [processMessage] at h3
  obtain ⟨mid, hmid, hrest⟩ := Option.bind_eq_some.mp h3
  have hmf := processCoMTrajectory_fields _ _ fp fo hmid
  have hcom := processCoMTrajectory_points_inv
    (destroyObjects { s with msg := some m, is_info := true }) mid fp fo m h1 rfl rfl hmid
  have hcomeq := processContactTrajectory_com_points mid s' fp fo hrest
  refine ⟨by rw [hcomeq]; exact hcom, ?_⟩
  exact processContactTrajectory_points_inv mid s' fp fo m (hmf.2.1.trans h2)
    hmf.2.2.2.1 hmf.1 hrest

/-- A fresh display state with both groups in Point style, for the C9 witness. -/
def sW9 : DisplayState := initState .POINTS .POINTS

/-- The result of processing the empty message on `sW9`. -/
def sW9r : DisplayState :=
  { initState .POINTS .POINTS with msg := some msgE, is_info := true }

/-- C9 witness: the theorem applied to the empty message in Point style. -/
theorem C9_point_markers_witness :
    (∀ pv ∈ sW9r.com_points, pv.framePosition = v0 ∧ pv.frameOrientation = qId ∧
        ∃ st ∈ msgE.trajectory, pv.point = (sanitizePoint st.com_position).toVec3) ∧
    rowsOk v0 qId msgE.trajectory sW9r.contact_points :=
  C9_point_markers sW9 sW9r v0 qId msgE rfl rfl (by decide)
